import Mathlib

/-!
Shallow embedding of the Dublin Cultural Events Search Engine backend
(src/backend/server.py): the extraction pipeline (scrape_website),
deduplicating store loop and status tracking (perform_scrape), the
relevance scorer (calculate_relevance_score) and the search ranker
(search_content).  Machine-level notes:
* Python floats are modelled by exact rationals; the decimal literals
  0.4, 0.3, 0.2, 0.1 used by the source are exactly representable.
* `fuzz.partial_ratio` is an external library function (fuzzywuzzy); it
  is modelled by an explicit function parameter `fuzz` returning the
  0..100 ratio, constrained by hypotheses where a claim needs them.
* `urllib.parse.urljoin` is likewise an external library function and is
  passed as a parameter `urljoin`; no claim depends on its semantics.
* BeautifulSoup documents are modelled by the rose tree `HNode`/`HForest`
  below: element nodes carry tag name, the (multi-valued) class
  attribute, the remaining attributes, and children; string nodes carry
  their text.  Traversal order of `find_all`/`find` is document
  (pre-)order, as in BeautifulSoup.
-/

namespace DublinEvents

/-- Python's substring test `needle in hay`. -/
def pyIn (needle hay : String) : Bool :=
  decide (needle.toList <:+: hay.toList)

/-- Python's string slice `s[:n]`. -/
def strTake (s : String) (n : Nat) : String :=
  (s.toList.take n).asString

/-- Python's `str.lower()` (ASCII case folding, which covers every
string the source compares). -/
def strLower (s : String) : String :=
  (s.toList.map Char.toLower).asString

/-- Python's `str.strip()`: remove leading and trailing whitespace. -/
def strStrip (s : String) : String :=
  ((s.toList.dropWhile Char.isWhitespace).reverse.dropWhile Char.isWhitespace).reverse.asString

mutual
/-- A BeautifulSoup node: a NavigableString or a Tag element. -/
inductive HNode : Type where
  | text : String → HNode
  | elem : String → List String → List (String × String) → HForest → HNode
inductive HForest : Type where
  | nil : HForest
  | cons : HNode → HForest → HForest
end

mutual
/-- All nodes of the subtree rooted at a node, in document (pre-)order,
the node itself first. -/
def allNodes : HNode → List HNode
  | .text s => [.text s]
  | .elem t c a ch => .elem t c a ch :: allForest ch
/-- All nodes of a forest in document (pre-)order. -/
def allForest : HForest → List HNode
  | .nil => []
  | .cons n f => allNodes n ++ allForest f
end

mutual
/-- Model of `script.decompose()` over all script/style elements: removes every
script and style subtree (server.py lines 111-112). -/
def decomposeNode : HNode → Option HNode
  | .text s => some (.text s)
  | .elem t c a ch =>
    if t = "script" ∨ t = "style" then none
    else some (.elem t c a (decomposeForest ch))
def decomposeForest : HForest → HForest
  | .nil => .nil
  | .cons n f =>
    match decomposeNode n with
    | some m => .cons m (decomposeForest f)
    | none => decomposeForest f
end

/-- The proper descendants of a node in document order (the search
domain of `element.find(...)`, which excludes the element itself). -/
def descendants : HNode → List HNode
  | .text _ => []
  | .elem _ _ _ ch => allForest ch

/-- The string of a NavigableString node. -/
def textOf : HNode → Option String
  | .text s => some s
  | .elem _ _ _ _ => none

/-- Model of `element.get_text(strip=True)`: concatenation of the stripped
descendant strings. -/
def getText (n : HNode) : String :=
  ((allNodes n).filterMap textOf).foldl (fun acc s => acc ++ strStrip s) ""

/-- Does the node's tag name belong to the given list (the `name`
argument of `find`/`find_all`)? -/
def isElemNamed (names : List String) : HNode → Bool
  | .text _ => false
  | .elem t _ _ _ => names.contains t

/-- The `class_=re.compile(r'(kw1|kw2|...)', re.I)` filter: some class
of the element contains one of the keywords, case-insensitively. -/
def classMatches (kws : List String) : HNode → Bool
  | .text _ => false
  | .elem _ cls _ _ => cls.any (fun c => kws.any (fun k => pyIn k (strLower c)))

/-- A stored content record (model WebsiteContent, server.py lines
39-50).  The randomly generated `id` (uuid4) and the `scraped_at`
timestamp are external nondeterminism no claim depends on and are
omitted. -/
structure WebsiteContent where
  title : String
  content : String
  url : String
  source_website : String
  event_date : Option String
  venue : Option String
  description : String
  content_type : String
  tags : List String
deriving DecidableEq, Repr

/-- server.py lines 161-164: `content_type = "event"` when the lowered
title contains one of the event keywords, else the `"article"` default. -/
def determineContentType (title : String) : String :=
  if ["event", "gig", "concert", "show", "exhibition"].any
      (fun keyword => pyIn keyword (strLower title)) then
    "event"
  else
    "article"

/-- server.py lines 166-175: the tag list built from the title. -/
def extractTags (title : String) : List String :=
  (if pyIn "music" (strLower title) || pyIn "gig" (strLower title) then ["music"] else []) ++
  (if pyIn "art" (strLower title) || pyIn "gallery" (strLower title) then ["art"] else []) ++
  (if pyIn "food" (strLower title) || pyIn "restaurant" (strLower title) then ["food"] else []) ++
  (if pyIn "theatre" (strLower title) || pyIn "play" (strLower title) then ["theatre"] else [])

/-- The attributes of an element node (empty for a string node). -/
def attrsOf : HNode → List (String × String)
  | .text _ => []
  | .elem _ _ attrs _ => attrs

/-- server.py lines 127-129: the title element, from the first
heading-like descendant with a title/heading/name class, else the first
heading descendant. -/
def findTitleElem (element : HNode) : Option HNode :=
  match (descendants element).find?
      (fun n => isElemNamed ["h1", "h2", "h3", "h4"] n &&
        classMatches ["title", "heading", "name"] n) with
  | some title_elem => some title_elem
  | none => (descendants element).find? (isElemNamed ["h1", "h2", "h3", "h4"])

/-- server.py lines 139-141: the description element, from the first
p/div descendant with an excerpt/summary/description/content class, else
the first p descendant. -/
def findContentElem (element : HNode) : Option HNode :=
  match (descendants element).find?
      (fun n => isElemNamed ["p", "div"] n &&
        classMatches ["excerpt", "summary", "description", "content"] n) with
  | some content_elem => some content_elem
  | none => (descendants element).find? (isElemNamed ["p"])

/-- server.py lines 146-150: the article link, resolved against the
origin when the first anchor carries a non-empty href, else the origin
URL itself. -/
def findArticleUrl (urljoin : String → String → String) (url : String)
    (element : HNode) : String :=
  match (descendants element).find? (isElemNamed ["a"]) with
  | some link_elem =>
    match (attrsOf link_elem).lookup "href" with
    | some href => if href = "" then url else urljoin url href
    | none => url
  | none => url

/-- server.py lines 156-159: the first descendant string containing a
venue/location/@ indicator, stripped and truncated to 100 characters. -/
def findVenue (element : HNode) : Option String :=
  (((descendants element).filterMap textOf).find?
      (fun s => ["venue", "location", "@"].any (fun k => pyIn k (strLower s)))).map
    (fun s => strTake (strStrip s) 100)

/-- The body of the per-container loop of `scrape_website` (server.py
lines 125-192): `none` models the `continue` paths (no title element, or
title under 10 characters). -/
def processArticleElement (urljoin : String → String → String) (url : String)
    (element : HNode) : Option WebsiteContent :=
  match findTitleElem element with
  | none => none
  | some te =>
    let title := getText te
    if title.length < 10 then none
    else
      let description := match findContentElem element with
        | some ce => getText ce
        | none => ""
      some
        { title := title
          content := description
          url := findArticleUrl urljoin url element
          source_website := url
          event_date := none
          venue := findVenue element
          description := strTake description 300
          content_type := determineContentType title
          tags := extractTags title }

/-- Model of `scrape_website` (server.py lines 99-198) on an already fetched and
parsed document: strip script/style, locate the candidate containers
(with the card/item/entry/story fallback), and process the first 10. -/
def scrape_website (urljoin : String → String → String) (soup0 : HForest)
    (url : String) : List WebsiteContent :=
  let soup := decomposeForest soup0
  let primary := (allForest soup).filter
    (fun n => isElemNamed ["article", "div"] n &&
      classMatches ["post", "article", "event", "news", "content"] n)
  let article_elements :=
    if primary.isEmpty then
      (allForest soup).filter
        (fun n => isElemNamed ["div"] n && classMatches ["card", "item", "entry", "story"] n)
    else primary
  (article_elements.take 10).filterMap (processArticleElement urljoin url)

/-- Model of `scrape_all_websites` (server.py lines 200-217) over the fetched
pages: each pair is a site URL together with the parsed markup its fetch
produced; per-site results are concatenated in site order. -/
def scrape_all_websites (urljoin : String → String → String)
    (pages : List (String × HForest)) : List WebsiteContent :=
  pages.flatMap (fun p => scrape_website urljoin p.2 p.1)

/-- A search request (model SearchQuery, server.py lines 52-55).  The
pydantic field `limit: int = 10` carries no positivity constraint, so
the model uses the full integers. -/
structure SearchQuery where
  query : String
  limit : Int := 10
  content_type : Option String := none

/-- A search hit (model SearchResult, server.py lines 57-67), with the
projected record fields and the computed score.  Scores are exact
rationals (see the header note on floats). -/
structure SearchResult where
  title : String
  description : String
  url : String
  source_website : String
  relevance_score : ℚ
  content_type : String
  venue : Option String
  event_date : Option String
  tags : List String
deriving DecidableEq, Repr

/-- Model of `calculate_relevance_score` (server.py lines 219-242), parameterized
by the external `fuzz.partial_ratio`, modelled as `fuzz` returning the
0..100 similarity ratio. -/
def calculate_relevance_score (fuzz : String → String → ℚ)
    (content : WebsiteContent) (query : String) : ℚ :=
  let query_lower := strLower query
  let title_lower := strLower content.title
  let description_lower := strLower content.description
  let title_score := fuzz query_lower title_lower / 100 * (0.4 : ℚ)
  let desc_score := fuzz query_lower description_lower / 100 * (0.3 : ℚ)
  let tag_score := content.tags.foldl
    (fun acc tag => if pyIn query_lower (strLower tag) then acc + (0.2 : ℚ) else acc) 0
  let venue_score : ℚ :=
    match content.venue with
    | some v => if pyIn query_lower (strLower v) then (0.1 : ℚ) else 0
    | none => 0
  min (title_score + desc_score + tag_score + venue_score) 1

/-- The Mongo find filter of `search_content` (server.py lines 321-327):
keep records of the requested content_type, or everything when no type
filter is supplied. -/
def contentTypeFilter (q : SearchQuery) (db : List WebsiteContent) : List WebsiteContent :=
  match q.content_type with
  | some ct => db.filter (fun c => c.content_type = ct)
  | none => db

/-- The `SearchResult(...)` constructor call of `search_content`
(server.py lines 349-360). -/
def toSearchResult (c : WebsiteContent) (score : ℚ) : SearchResult :=
  { title := c.title
    description := c.description
    url := c.url
    source_website := c.source_website
    relevance_score := score
    content_type := c.content_type
    venue := c.venue
    event_date := c.event_date
    tags := c.tags }

/-- The scoring loop of `search_content` (server.py lines 333-361): scan
the filtered records in store order, score each, and keep those above
the 0.1 minimum relevance threshold. -/
def scored_results (fuzz : String → String → ℚ) (q : SearchQuery)
    (db : List WebsiteContent) : List SearchResult :=
  (contentTypeFilter q db).filterMap (fun c =>
    let score := calculate_relevance_score fuzz c q.query
    if (0.1 : ℚ) < score then some (toSearchResult c score) else none)

/-- The descending comparison used by
`sort(key=lambda x: x.relevance_score, reverse=True)`. -/
def scoreGe (a b : SearchResult) : Prop :=
  b.relevance_score ≤ a.relevance_score

instance : DecidableRel scoreGe := fun a b =>
  inferInstanceAs (Decidable (b.relevance_score ≤ a.relevance_score))

instance : IsTotal SearchResult scoreGe :=
  ⟨fun a b => le_total b.relevance_score a.relevance_score⟩

instance : IsTrans SearchResult scoreGe :=
  ⟨fun _ _ _ h1 h2 => le_trans h2 h1⟩

/-- The sort of `search_content` (server.py line 364).  Python's
`list.sort` is a stable sort; insertion sort is extensionally the same
stable descending sort. -/
def ranked_results (fuzz : String → String → ℚ) (q : SearchQuery)
    (db : List WebsiteContent) : List SearchResult :=
  (scored_results fuzz q db).insertionSort scoreGe

/-- Python's slice `l[:n]` for an arbitrary integer `n`: a nonnegative
`n` keeps the first `n` elements; a negative `n` drops the last `|n|`. -/
def pySlice (n : Int) (l : List SearchResult) : List SearchResult :=
  if 0 ≤ n then l.take n.toNat else l.take (l.length - (-n).toNat)

/-- Model of `search_content` (server.py lines 316-367) over an in-memory store:
filter, score, threshold, stable-sort descending, and truncate via
`scored_results[:search_query.limit]`. -/
def search_content (fuzz : String → String → ℚ) (q : SearchQuery)
    (db : List WebsiteContent) : List SearchResult :=
  pySlice q.limit (ranked_results fuzz q db)

/-- The scrape status document written by `perform_scrape` (server.py
lines 270-296); `last_scraped` models the `datetime.utcnow()` timestamp
as an abstract clock value. -/
structure StatusDoc where
  status : String
  message : String
  scraped_count : Nat
  last_scraped : Nat
deriving DecidableEq, Repr

/-- The database: the `scraped_content` collection in insertion order
and the singleton `scrape_status` document (none before any run). -/
structure DB where
  scraped_content : List WebsiteContent
  scrape_status : Option StatusDoc
deriving DecidableEq, Repr

/-- Model of the lookup `db.scraped_content.find_one` by url (server.py line 264). -/
def find_one_url (store : List WebsiteContent) (url : String) : Option WebsiteContent :=
  store.find? (fun r => r.url = url)

/-- One iteration of the store loop of `perform_scrape` (server.py lines
262-267): skip when a record with the same url exists, else insert and
count. -/
def scrapeStep (acc : List WebsiteContent × Nat) (content : WebsiteContent) :
    List WebsiteContent × Nat :=
  match find_one_url acc.1 content.url with
  | some _ => acc
  | none => (acc.1 ++ [content], acc.2 + 1)

/-- The whole store loop of `perform_scrape`: returns the final
collection and the `stored_count` of newly inserted records. -/
def storeLoop (store : List WebsiteContent) (content_list : List WebsiteContent) :
    List WebsiteContent × Nat :=
  content_list.foldl scrapeStep (store, 0)

/-- The success path of `perform_scrape` (server.py lines 254-282): run
the store loop, then overwrite the status singleton with the completed
summary. -/
def perform_scrape (db : DB) (content_list : List WebsiteContent) (now : Nat) : DB :=
  let result := storeLoop db.scraped_content content_list
  { scraped_content := result.1
    scrape_status := some
      { status := "completed"
        message := "Successfully scraped " ++ toString result.2 ++ " new articles"
        scraped_count := result.2
        last_scraped := now } }

/-- The except path of `perform_scrape` (server.py lines 284-296): an
uncaught exception interrupts the store loop after `k` candidates (the
failure itself — network, store, or serialization — is external), and
the status singleton is overwritten with the failed summary.  The code
performs no rollback: the store keeps everything the interrupted loop
inserted. -/
def perform_scrape_failed (db : DB) (content_list : List WebsiteContent) (k : Nat)
    (err : String) (now : Nat) : DB :=
  { scraped_content := (storeLoop db.scraped_content (content_list.take k)).1
    scrape_status := some
      { status := "failed"
        message := "Scraping failed: " ++ err
        scraped_count := 0
        last_scraped := now } }

/-- The observable database states of one successful `perform_scrape`
run, in order: the state when the run begins, the state after each store
loop iteration, and the state after the final status write.  The status
singleton is untouched until that final write (the source has no other
`scrape_status` write in the run). -/
def perform_scrape_trace (db : DB) (content_list : List WebsiteContent) (now : Nat) :
    List DB :=
  (List.range (content_list.length + 1)).map
    (fun k =>
      { scraped_content := (storeLoop db.scraped_content (content_list.take k)).1
        scrape_status := db.scrape_status }) ++
  [perform_scrape db content_list now]

/-- Formalisation of the claimed scoring formula (spec section 4.5, for
the refinement comparison): the weighted sum of the fuzzy ratios, 0.2
per tag containing the query, and 0.1 for a venue containing the query,
clamped to [0,1]. -/
def relevanceScoreSpec (fuzz : String → String → ℚ) (content : WebsiteContent)
    (query : String) : ℚ :=
  let raw :=
    (0.4 : ℚ) * (fuzz (strLower query) (strLower content.title) / 100) +
    (0.3 : ℚ) * (fuzz (strLower query) (strLower content.description) / 100) +
    (0.2 : ℚ) * ((content.tags.filter (fun t => pyIn (strLower query) (strLower t))).length : ℚ) +
    (match content.venue with
     | some v => if pyIn (strLower query) (strLower v) then (0.1 : ℚ) else 0
     | none => 0)
  max 0 (min raw 1)

/-- Formalisation of the claimed tag assignment (spec section 4.2, for
the refinement comparison): exactly the tags one of whose keywords
occurs in the lowered title. -/
def tagsSpec (title : String) : List String :=
  [("music", ["music", "gig"]), ("art", ["art", "gallery"]),
   ("food", ["food", "restaurant"]), ("theatre", ["theatre", "play"])].filterMap
    (fun p => if p.2.any (fun k => pyIn k (strLower title)) then some p.1 else none)

/-- A concrete page with one post container titled "Dublin Jazz Festival
Returns This Weekend" (spec Scenario A). -/
def jazzDoc : HForest :=
  .cons
    (.elem "div" ["post"] []
      (.cons (.elem "h2" [] []
          (.cons (.text "Dublin Jazz Festival Returns This Weekend") .nil))
        (.cons (.elem "p" [] []
            (.cons (.text "A weekend of jazz across the city.") .nil))
          .nil)))
    .nil

/-- The record the extractor produces from `jazzDoc`. -/
def jazzRecord : WebsiteContent :=
  { title := "Dublin Jazz Festival Returns This Weekend"
    content := "A weekend of jazz across the city."
    url := "https://example.ie/"
    source_website := "https://example.ie/"
    event_date := none
    venue := none
    description := "A weekend of jazz across the city."
    content_type := "article"
    tags := [] }

/-- A concrete stored record used to instantiate theorems. -/
def sampleRecord : WebsiteContent :=
  { title := "Live Music Tonight In Town"
    content := "A gig at Whelans."
    url := "https://example.ie/gig"
    source_website := "https://example.ie/"
    event_date := none
    venue := some "Whelans"
    description := "A gig at Whelans."
    content_type := "article"
    tags := ["music"] }

/-- The database before any ingestion run. -/
def dbEmpty : DB :=
  { scraped_content := [], scrape_status := none }

/-! ## Helper lemmas -/

/-- The empty string is a Python substring of every string. -/
theorem pyIn_left_empty (s : String) : pyIn "" s = true := by
  simp [pyIn]

theorem strLower_empty : strLower "" = "" := rfl

/-- The tag loop of the scorer accumulates 0.2 per matching tag. -/
theorem tag_fold_eq (ql : String) (tags : List String) (init : ℚ) :
    tags.foldl (fun acc tag => if pyIn ql (strLower tag) then acc + (0.2 : ℚ) else acc) init =
      init + (0.2 : ℚ) * ((tags.filter (fun t => pyIn ql (strLower t))).length : ℚ) := by
  induction tags generalizing init with
  | nil => simp
  | cons t ts ih =>
    simp only [List.foldl_cons, List.filter_cons]
    by_cases h : pyIn ql (strLower t) = true
    · rw [if_pos h, if_pos h, ih]
      push_cast [List.length_cons]
      ring
    · rw [if_neg h, if_neg h, ih]

/-- The per-container extractor only returns candidates with a title of
at least 10 characters, whose description is the 300-character
truncation of the content text, and whose type and tags are the title
classification. -/
theorem processArticleElement_some (urljoin : String → String → String) (url : String)
    (e : HNode) (a : WebsiteContent)
    (h : processArticleElement urljoin url e = some a) :
    10 ≤ a.title.length ∧ a.description = strTake a.content 300 ∧
      a.content_type = determineContentType a.title ∧ a.tags = extractTags a.title := by
  simp only [processArticleElement] at h
  cases hte : findTitleElem e with
  | none => rw [hte] at h; exact absurd h (by simp)
  | some te =>
    rw [hte] at h
    dsimp only at h
    by_cases hlen : (getText te).length < 10
    · rw [if_pos hlen] at h; exact absurd h (by simp)
    · rw [if_neg hlen] at h
      simp only [Option.some.injEq] at h
      subst h
      exact ⟨Nat.le_of_not_lt hlen, rfl, rfl, rfl⟩

/-- The function `determineContentType` returns "event" exactly when an event keyword
occurs in the lowered title, and "article" otherwise. -/
theorem determineContentType_spec (title : String) :
    (determineContentType title = "event" ↔
      (["event", "gig", "concert", "show", "exhibition"].any
        (fun keyword => pyIn keyword (strLower title))) = true) ∧
    (determineContentType title ≠ "event" → determineContentType title = "article") := by
  unfold determineContentType
  split
  · next h => exact ⟨⟨fun _ => h, fun _ => rfl⟩, fun hne => absurd rfl hne⟩
  · next h =>
    refine ⟨⟨fun he => absurd he (by decide), fun hk => absurd hk h⟩, fun _ => rfl⟩

/-- The sequential tag construction of the source equals the claimed
tag-set description. -/
theorem extractTags_eq_tagsSpec (title : String) : extractTags title = tagsSpec title := by
  unfold extractTags tagsSpec
  simp only [List.filterMap_cons, List.filterMap_nil, List.any_cons, List.any_nil,
    Bool.or_false]
  split_ifs <;> rfl

/-- The store loop never removes a record. -/
theorem storeLoop_mem_mono (content_list : List WebsiteContent) :
    ∀ store n r, r ∈ store → r ∈ (content_list.foldl scrapeStep (store, n)).1 := by
  induction content_list with
  | nil => intro store n r hr; exact hr
  | cons c cs ih =>
    intro store n r hr
    simp only [List.foldl_cons]
    unfold scrapeStep
    cases find_one_url store c.url with
    | some _ => exact ih store n r hr
    | none => exact ih (store ++ [c]) (n + 1) r (List.mem_append_left _ hr)

/-- After the store loop, every processed candidate's url is present. -/
theorem storeLoop_url_covered (content_list : List WebsiteContent) :
    ∀ store n c, c ∈ content_list →
      ∃ r ∈ (content_list.foldl scrapeStep (store, n)).1, r.url = c.url := by
  induction content_list with
  | nil => intro store n c hc; exact absurd hc (List.not_mem_nil c)
  | cons c0 cs ih =>
    intro store n c hc
    simp only [List.foldl_cons]
    rcases List.mem_cons.mp hc with hc0 | hcs
    · subst hc0
      unfold scrapeStep
      cases hf : find_one_url store c.url with
      | some r =>
        have hr := List.find?_some hf
        have hrmem := List.mem_of_find?_eq_some hf
        exact ⟨r, storeLoop_mem_mono cs store n r hrmem, by simpa using hr⟩
      | none =>
        exact ⟨c, storeLoop_mem_mono cs (store ++ [c]) (n + 1) c
          (List.mem_append_right _ (List.mem_singleton.mpr rfl)), rfl⟩
    · unfold scrapeStep
      cases find_one_url store c0.url with
      | some _ => exact ih store n c hcs
      | none => exact ih (store ++ [c0]) (n + 1) c hcs

/-- When every candidate's url is already present, the store loop is a
no-op and counts zero insertions. -/
theorem storeLoop_covered_noop (content_list : List WebsiteContent) :
    ∀ store n, (∀ c ∈ content_list, ∃ r ∈ store, r.url = c.url) →
      content_list.foldl scrapeStep (store, n) = (store, n) := by
  induction content_list with
  | nil => intro store n _; rfl
  | cons c cs ih =>
    intro store n hcov
    simp only [List.foldl_cons]
    obtain ⟨r, hrmem, hrurl⟩ := hcov c (List.mem_cons_self c cs)
    have hsome : (find_one_url store c.url).isSome := by
      rw [find_one_url, List.find?_isSome]
      exact ⟨r, hrmem, by simpa using hrurl⟩
    unfold scrapeStep
    cases hf : find_one_url store c.url with
    | none => rw [hf] at hsome; simp at hsome
    | some _ => exact ih store n (fun c2 hc2 => hcov c2 (List.mem_cons_of_mem c hc2))

/-- The store loop preserves uniqueness of urls. -/
theorem storeLoop_nodup (content_list : List WebsiteContent) :
    ∀ store n, (store.map WebsiteContent.url).Nodup →
      (((content_list.foldl scrapeStep (store, n)).1).map WebsiteContent.url).Nodup := by
  induction content_list with
  | nil => intro store n h; exact h
  | cons c cs ih =>
    intro store n h
    simp only [List.foldl_cons]
    unfold scrapeStep
    cases hf : find_one_url store c.url with
    | some _ => exact ih store n h
    | none =>
      apply ih
      have hnot : ∀ r ∈ store, ¬ r.url = c.url := by
        simpa [find_one_url] using hf
      rw [List.map_append]
      simp only [List.map_cons, List.map_nil]
      rw [List.nodup_append]
      refine ⟨h, List.nodup_singleton _, ?_⟩
      intro u hu hu2
      obtain ⟨r, hr, hrul⟩ := List.mem_map.mp hu
      have : u = c.url := by simpa using hu2
      exact hnot r hr (by rw [hrul, this])

/-- Stability of the descending sort: each equal-score class of the
sorted output is exactly the equal-score class of the input, in input
order. -/
theorem filter_score_insertionSort (s : ℚ) (l : List SearchResult) :
    (l.insertionSort scoreGe).filter (fun x => decide (x.relevance_score = s)) =
      l.filter (fun x => decide (x.relevance_score = s)) := by
  induction l with
  | nil => rfl
  | cons a l ih =>
    have hsplit := List.takeWhile_append_dropWhile
      (fun b => decide ¬ scoreGe a b) (l.insertionSort scoreGe)
    have hM : (l.insertionSort scoreGe).filter (fun x => decide (x.relevance_score = s)) =
        ((l.insertionSort scoreGe).takeWhile (fun b => decide ¬ scoreGe a b)).filter
            (fun x => decide (x.relevance_score = s)) ++
          ((l.insertionSort scoreGe).dropWhile (fun b => decide ¬ scoreGe a b)).filter
            (fun x => decide (x.relevance_score = s)) := by
      rw [← List.filter_append, hsplit]
    have htw : ((l.insertionSort scoreGe).takeWhile
        (fun b => decide ¬ scoreGe a b)).filter
          (fun x => decide (x.relevance_score = s)) = [] ∨
        ¬ a.relevance_score = s := by
      by_cases ha : a.relevance_score = s
      · left
        rw [List.filter_eq_nil_iff]
        intro b hb
        have hq := List.mem_takeWhile_imp hb
        have hnot : ¬ scoreGe a b := of_decide_eq_true hq
        have hlt : a.relevance_score < b.relevance_score := lt_of_not_le hnot
        simp only [decide_eq_true_eq]
        intro hbs
        rw [hbs, ← ha] at hlt
        exact lt_irrefl _ hlt
      · right; exact ha
    show (List.orderedInsert scoreGe a (l.insertionSort scoreGe)).filter
        (fun x => decide (x.relevance_score = s)) = _
    rw [List.orderedInsert_eq_take_drop, List.filter_append, List.filter_cons,
      List.filter_cons]
    by_cases ha : a.relevance_score = s
    · have hpa : decide (a.relevance_score = s) = true := decide_eq_true ha
      rcases htw with htw | hbad
      · rw [htw, if_pos hpa, if_pos hpa, List.nil_append]
        have hdrop : ((l.insertionSort scoreGe).dropWhile
            (fun b => decide ¬ scoreGe a b)).filter
              (fun x => decide (x.relevance_score = s)) =
            l.filter (fun x => decide (x.relevance_score = s)) := by
          rw [← ih, hM, htw, List.nil_append]
        rw [hdrop]
      · exact absurd ha hbad
    · have hpa : ¬ (decide (a.relevance_score = s) = true) := by simpa using ha
      rw [if_neg hpa, if_neg hpa]
      rw [← List.filter_append, hsplit, ih]

/-! ## Claim theorems -/

/-- C2: for every stored record and query, with the external fuzzy ratio
in its documented 0..100 range, the relevance score equals the spec
formula 0.4·fuzzyMatch(query,title) + 0.3·fuzzyMatch(query,description)
+ 0.2 per tag containing the query + 0.1 for a venue containing the
query, all case-insensitively, clamped so the result lies in [0,1]. -/
theorem calculate_relevance_score_eq_spec (fuzz : String → String → ℚ)
    (c : WebsiteContent) (query : String)
    (ht0 : 0 ≤ fuzz (strLower query) (strLower c.title))
    (ht1 : fuzz (strLower query) (strLower c.title) ≤ 100)
    (hd0 : 0 ≤ fuzz (strLower query) (strLower c.description))
    (hd1 : fuzz (strLower query) (strLower c.description) ≤ 100) :
    calculate_relevance_score fuzz c query = relevanceScoreSpec fuzz c query ∧
    0 ≤ calculate_relevance_score fuzz c query ∧
    calculate_relevance_score fuzz c query ≤ 1 := by
  simp only [calculate_relevance_score, relevanceScoreSpec]
  rw [tag_fold_eq]
  have hV : 0 ≤ (match c.venue with
      | some v => if pyIn (strLower query) (strLower v) then (0.1 : ℚ) else 0
      | none => 0) := by
    cases c.venue with
    | none => exact le_refl 0
    | some v =>
      dsimp only
      split
      · norm_num
      · exact le_refl 0
  have harg : fuzz (strLower query) (strLower c.title) / 100 * (0.4 : ℚ) +
        fuzz (strLower query) (strLower c.description) / 100 * (0.3 : ℚ) +
        (0 + (0.2 : ℚ) *
          ((c.tags.filter (fun t => pyIn (strLower query) (strLower t))).length : ℚ)) +
        (match c.venue with
         | some v => if pyIn (strLower query) (strLower v) then (0.1 : ℚ) else 0
         | none => 0) =
      (0.4 : ℚ) * (fuzz (strLower query) (strLower c.title) / 100) +
        (0.3 : ℚ) * (fuzz (strLower query) (strLower c.description) / 100) +
        (0.2 : ℚ) *
          ((c.tags.filter (fun t => pyIn (strLower query) (strLower t))).length : ℚ) +
        (match c.venue with
         | some v => if pyIn (strLower query) (strLower v) then (0.1 : ℚ) else 0
         | none => 0) := by
    ring
  rw [harg]
  have hX : 0 ≤ (0.4 : ℚ) * (fuzz (strLower query) (strLower c.title) / 100) +
      (0.3 : ℚ) * (fuzz (strLower query) (strLower c.description) / 100) +
      (0.2 : ℚ) *
        ((c.tags.filter (fun t => pyIn (strLower query) (strLower t))).length : ℚ) +
      (match c.venue with
       | some v => if pyIn (strLower query) (strLower v) then (0.1 : ℚ) else 0
       | none => 0) := by
    have h1 : 0 ≤ (0.4 : ℚ) * (fuzz (strLower query) (strLower c.title) / 100) :=
      mul_nonneg (by norm_num) (div_nonneg ht0 (by norm_num))
    have h2 : 0 ≤ (0.3 : ℚ) * (fuzz (strLower query) (strLower c.description) / 100) :=
      mul_nonneg (by norm_num) (div_nonneg hd0 (by norm_num))
    have h3 : 0 ≤ (0.2 : ℚ) *
        ((c.tags.filter (fun t => pyIn (strLower query) (strLower t))).length : ℚ) :=
      mul_nonneg (by norm_num) (by positivity)
    exact add_nonneg (add_nonneg (add_nonneg h1 h2) h3) hV
  have hmin : 0 ≤ min ((0.4 : ℚ) * (fuzz (strLower query) (strLower c.title) / 100) +
      (0.3 : ℚ) * (fuzz (strLower query) (strLower c.description) / 100) +
      (0.2 : ℚ) *
        ((c.tags.filter (fun t => pyIn (strLower query) (strLower t))).length : ℚ) +
      (match c.venue with
       | some v => if pyIn (strLower query) (strLower v) then (0.1 : ℚ) else 0
       | none => 0)) 1 := le_min hX zero_le_one
  exact ⟨(max_eq_right hmin).symm, hmin, min_le_right _ _⟩

/-- C2 witness: the theorem applied at a concrete ratio function, record
and query. -/
theorem calculate_relevance_score_eq_spec_witness :
    (0 : ℚ) ≤ 50 ∧ (50 : ℚ) ≤ 100 ∧
    (calculate_relevance_score (fun _ _ => (50 : ℚ)) sampleRecord "music" =
        relevanceScoreSpec (fun _ _ => (50 : ℚ)) sampleRecord "music" ∧
      0 ≤ calculate_relevance_score (fun _ _ => (50 : ℚ)) sampleRecord "music" ∧
      calculate_relevance_score (fun _ _ => (50 : ℚ)) sampleRecord "music" ≤ 1) :=
  ⟨by norm_num, by norm_num,
    calculate_relevance_score_eq_spec (fun _ _ => (50 : ℚ)) sampleRecord "music"
      (by norm_num) (by norm_num) (by norm_num) (by norm_num)⟩

/-- C10: for the empty query, with the external fuzzy ratio returning 0
on the record's (lowered) title and description — fuzzywuzzy's
documented behaviour when one side of the comparison is empty and the
other is not — the relevance score of a record with a non-empty title is
exactly min(0.2·|tags| + 0.1·[has venue], 1.0): the fuzzy components
contribute nothing, while the empty string is a substring of every tag
and every venue. -/
theorem empty_query_score (fuzz : String → String → ℚ) (r : WebsiteContent)
    (htitle : r.title ≠ "")
    (hft : fuzz (strLower "") (strLower r.title) = 0)
    (hfd : fuzz (strLower "") (strLower r.description) = 0) :
    calculate_relevance_score fuzz r "" =
      min ((0.2 : ℚ) * (r.tags.length : ℚ) +
        (if r.venue.isSome then (0.1 : ℚ) else 0)) 1 := by
  simp only [calculate_relevance_score]
  rw [hft, hfd, tag_fold_eq]
  have hall : r.tags.filter (fun t => pyIn (strLower "") (strLower t)) = r.tags :=
    List.filter_eq_self.mpr (fun t _ => by rw [strLower_empty]; exact pyIn_left_empty _)
  rw [hall]
  have hven : (match r.venue with
      | some v => if pyIn (strLower "") (strLower v) then (0.1 : ℚ) else 0
      | none => 0) = (if r.venue.isSome then (0.1 : ℚ) else 0) := by
    cases r.venue with
    | none => rfl
    | some v =>
      dsimp only [Option.isSome]
      rw [strLower_empty, pyIn_left_empty]
  rw [hven]
  norm_num

/-- C10 witness: the theorem applied at a concrete ratio function and a
record with a non-empty title. -/
theorem empty_query_score_witness :
    sampleRecord.title ≠ "" ∧
    calculate_relevance_score (fun _ _ => (0 : ℚ)) sampleRecord "" =
      min ((0.2 : ℚ) * (sampleRecord.tags.length : ℚ) +
        (if sampleRecord.venue.isSome then (0.1 : ℚ) else 0)) 1 :=
  ⟨by decide, empty_query_score (fun _ _ => (0 : ℚ)) sampleRecord (by decide) rfl rfl⟩

/-- C9: the positive-integer precondition on SearchQuery.limit is not
enforced: limit 0 returns the empty sequence, and a negative limit
returns all surviving ranked results except the last |limit| of them
(Python slice semantics), rather than failing. -/
theorem search_limit_unenforced (fuzz : String → String → ℚ) (q : SearchQuery)
    (db : List WebsiteContent) :
    (q.limit = 0 → search_content fuzz q db = []) ∧
    (q.limit < 0 →
      search_content fuzz q db =
        (ranked_results fuzz q db).take
          ((ranked_results fuzz q db).length - (-q.limit).toNat) ∧
      (search_content fuzz q db).length =
        (ranked_results fuzz q db).length - (-q.limit).toNat) := by
  constructor
  · intro h0
    unfold search_content pySlice
    rw [h0]
    simp
  · intro hneg
    have hnot : ¬ (0 : Int) ≤ q.limit := not_le.mpr hneg
    constructor
    · unfold search_content pySlice
      rw [if_neg hnot]
    · unfold search_content pySlice
      rw [if_neg hnot, List.length_take]
      exact min_eq_left (Nat.sub_le _ _)

/-- C9 witness: the theorem applied at limit 0 and at limit -1 over a
concrete one-record store. -/
theorem search_limit_unenforced_witness :
    ((0 : Int) = 0 ∧
      search_content (fun _ _ => (100 : ℚ)) { query := "music", limit := 0 }
        [sampleRecord] = []) ∧
    ((-1 : Int) < 0 ∧
      search_content (fun _ _ => (100 : ℚ)) { query := "music", limit := -1 }
          [sampleRecord] =
        (ranked_results (fun _ _ => (100 : ℚ)) { query := "music", limit := -1 }
            [sampleRecord]).take
          ((ranked_results (fun _ _ => (100 : ℚ)) { query := "music", limit := -1 }
            [sampleRecord]).length - ((-(-1 : Int)).toNat)) ∧
      (search_content (fun _ _ => (100 : ℚ)) { query := "music", limit := -1 }
          [sampleRecord]).length =
        (ranked_results (fun _ _ => (100 : ℚ)) { query := "music", limit := -1 }
          [sampleRecord]).length - ((-(-1 : Int)).toNat)) :=
  ⟨⟨rfl, (search_limit_unenforced (fun _ _ => (100 : ℚ))
      { query := "music", limit := 0 } [sampleRecord]).1 rfl⟩,
    ⟨by decide, (search_limit_unenforced (fun _ _ => (100 : ℚ))
      { query := "music", limit := -1 } [sampleRecord]).2 (by decide)⟩⟩

/-- C1: for every search request (with the nonnegative limit the spec's
SearchQuery data model prescribes), the returned sequence is sorted
non-increasing by relevance_score, contains no entry with score ≤ 0.1,
and has length ≤ the query's limit; ties are kept in the stable original
scan order — the output is a prefix of the ranked list, and every
equal-score class of the ranked list is exactly the scan-order class of
the surviving scored results. -/
theorem search_content_ranker_spec (fuzz : String → String → ℚ) (q : SearchQuery)
    (db : List WebsiteContent) (hlim : 0 ≤ q.limit) :
    List.Sorted scoreGe (search_content fuzz q db) ∧
    (∀ x ∈ search_content fuzz q db, (0.1 : ℚ) < x.relevance_score) ∧
    ((search_content fuzz q db).length : Int) ≤ q.limit ∧
    search_content fuzz q db = (ranked_results fuzz q db).take q.limit.toNat ∧
    (∀ s : ℚ,
      (ranked_results fuzz q db).filter (fun x => decide (x.relevance_score = s)) =
        (scored_results fuzz q db).filter (fun x => decide (x.relevance_score = s))) := by
  have heq : search_content fuzz q db = (ranked_results fuzz q db).take q.limit.toNat := by
    unfold search_content pySlice
    rw [if_pos hlim]
  have hsorted : List.Sorted scoreGe (ranked_results fuzz q db) :=
    List.sorted_insertionSort scoreGe (scored_results fuzz q db)
  refine ⟨?_, ?_, ?_, heq, fun s => filter_score_insertionSort s _⟩
  · rw [heq]
    exact List.Pairwise.sublist (List.take_sublist _ _) hsorted
  · intro x hx
    rw [heq] at hx
    have hx2 : x ∈ ranked_results fuzz q db := (List.take_sublist _ _).subset hx
    have hx3 : x ∈ scored_results fuzz q db :=
      (List.perm_insertionSort scoreGe _).subset hx2
    simp only [scored_results] at hx3
    obtain ⟨c, _, hsome⟩ := List.mem_filterMap.mp hx3
    by_cases hsc : (0.1 : ℚ) < calculate_relevance_score fuzz c q.query
    · rw [if_pos hsc] at hsome
      injection hsome with hxx
      subst hxx
      exact hsc
    · rw [if_neg hsc] at hsome
      exact absurd hsome (by simp)
  · rw [heq]
    have h1 : ((ranked_results fuzz q db).take q.limit.toNat).length ≤ q.limit.toNat :=
      List.length_take_le _ _
    have h2 : (((ranked_results fuzz q db).take q.limit.toNat).length : Int) ≤
        (q.limit.toNat : Int) := Int.ofNat_le.mpr h1
    rwa [Int.toNat_of_nonneg hlim] at h2

/-- C1 witness: the theorem applied at a concrete ratio function, query
and one-record store. -/
theorem search_content_ranker_spec_witness :
    (0 : Int) ≤ (5 : Int) ∧
    (List.Sorted scoreGe (search_content (fun _ _ => (80 : ℚ))
        { query := "music", limit := 5 } [sampleRecord]) ∧
      (∀ x ∈ search_content (fun _ _ => (80 : ℚ))
          { query := "music", limit := 5 } [sampleRecord],
        (0.1 : ℚ) < x.relevance_score) ∧
      ((search_content (fun _ _ => (80 : ℚ))
          { query := "music", limit := 5 } [sampleRecord]).length : Int) ≤ 5 ∧
      search_content (fun _ _ => (80 : ℚ)) { query := "music", limit := 5 }
          [sampleRecord] =
        (ranked_results (fun _ _ => (80 : ℚ)) { query := "music", limit := 5 }
          [sampleRecord]).take ((5 : Int).toNat) ∧
      (∀ s : ℚ,
        (ranked_results (fun _ _ => (80 : ℚ)) { query := "music", limit := 5 }
            [sampleRecord]).filter (fun x => decide (x.relevance_score = s)) =
          (scored_results (fun _ _ => (80 : ℚ)) { query := "music", limit := 5 }
            [sampleRecord]).filter (fun x => decide (x.relevance_score = s)))) :=
  ⟨by decide, search_content_ranker_spec (fun _ _ => (80 : ℚ))
    { query := "music", limit := 5 } [sampleRecord] (by decide)⟩

/-- C3: a candidate whose url already exists in the store is skipped
without any write and without touching the counter; otherwise it is
appended and the new-record counter is incremented; and every ingestion
run preserves uniqueness of stored urls. -/
theorem ingestion_url_unique (store : List WebsiteContent) (n : Nat)
    (c : WebsiteContent) (db : DB) (content_list : List WebsiteContent) (now : Nat) :
    ((∃ r ∈ store, r.url = c.url) → scrapeStep (store, n) c = (store, n)) ∧
    ((∀ r ∈ store, r.url ≠ c.url) → scrapeStep (store, n) c = (store ++ [c], n + 1)) ∧
    ((db.scraped_content.map WebsiteContent.url).Nodup →
      (((perform_scrape db content_list now).scraped_content).map
        WebsiteContent.url).Nodup) := by
  refine ⟨?_, ?_, ?_⟩
  · rintro ⟨r, hr, hu⟩
    have hsome : (find_one_url store c.url).isSome := by
      rw [find_one_url, List.find?_isSome]
      exact ⟨r, hr, by simpa using hu⟩
    unfold scrapeStep
    cases hf : find_one_url store c.url with
    | none => rw [hf] at hsome; simp at hsome
    | some _ => rfl
  · intro hnone
    have hf : find_one_url store c.url = none := by
      rw [find_one_url, List.find?_eq_none]
      intro r hr
      simpa using hnone r hr
    unfold scrapeStep
    rw [hf]
  · intro h
    exact storeLoop_nodup content_list db.scraped_content 0 h

/-- C3 witness: the theorem applied at a concrete store, candidate and
database. -/
theorem ingestion_url_unique_witness :
    (∃ r ∈ [sampleRecord], r.url = sampleRecord.url) ∧
    scrapeStep ([sampleRecord], 3) sampleRecord = ([sampleRecord], 3) ∧
    (∀ r ∈ ([] : List WebsiteContent), r.url ≠ sampleRecord.url) ∧
    scrapeStep (([] : List WebsiteContent), 0) sampleRecord = ([sampleRecord], 1) ∧
    ((dbEmpty.scraped_content.map WebsiteContent.url).Nodup →
      (((perform_scrape dbEmpty [sampleRecord, sampleRecord] 7).scraped_content).map
        WebsiteContent.url).Nodup) :=
  ⟨⟨sampleRecord, by decide, rfl⟩,
    (ingestion_url_unique [sampleRecord] 3 sampleRecord dbEmpty [] 0).1
      ⟨sampleRecord, by decide, rfl⟩,
    by decide,
    (ingestion_url_unique [] 0 sampleRecord dbEmpty [] 0).2.1 (by decide),
    (ingestion_url_unique [] 0 sampleRecord dbEmpty [sampleRecord, sampleRecord] 7).2.2⟩

/-- C4: ingestion is idempotent — a second run over the extraction
output of the same fetched pages inserts nothing and records
scraped_count = 0 with a completed status. -/
theorem ingestion_idempotent (urljoin : String → String → String)
    (pages : List (String × HForest)) (db : DB) (t1 t2 : Nat) :
    (perform_scrape (perform_scrape db (scrape_all_websites urljoin pages) t1)
        (scrape_all_websites urljoin pages) t2).scraped_content =
      (perform_scrape db (scrape_all_websites urljoin pages) t1).scraped_content ∧
    ((perform_scrape (perform_scrape db (scrape_all_websites urljoin pages) t1)
        (scrape_all_websites urljoin pages) t2).scrape_status.map
      StatusDoc.scraped_count) = some 0 ∧
    ((perform_scrape (perform_scrape db (scrape_all_websites urljoin pages) t1)
        (scrape_all_websites urljoin pages) t2).scrape_status.map
      StatusDoc.status) = some "completed" := by
  have hcov : ∀ c ∈ scrape_all_websites urljoin pages,
      ∃ r ∈ (perform_scrape db (scrape_all_websites urljoin pages) t1).scraped_content,
        r.url = c.url :=
    fun c hc => storeLoop_url_covered (scrape_all_websites urljoin pages)
      db.scraped_content 0 c hc
  have hnoop : storeLoop
      (perform_scrape db (scrape_all_websites urljoin pages) t1).scraped_content
      (scrape_all_websites urljoin pages) =
      ((perform_scrape db (scrape_all_websites urljoin pages) t1).scraped_content, 0) :=
    storeLoop_covered_noop (scrape_all_websites urljoin pages) _ 0 hcov
  refine ⟨?_, ?_, ?_⟩
  · show (storeLoop
        (perform_scrape db (scrape_all_websites urljoin pages) t1).scraped_content
        (scrape_all_websites urljoin pages)).1 = _
    rw [hnoop]
  · show some (storeLoop
        (perform_scrape db (scrape_all_websites urljoin pages) t1).scraped_content
        (scrape_all_websites urljoin pages)).2 = some 0
    rw [hnoop]
  · rfl

/-- C7: on an uncaught failure after `k` processed candidates, the run
status is set to failed with scraped_count 0, the error message, and the
current time, while the records persisted earlier in that run — the old
store and every candidate processed before the failure — remain in the
store (no rollback). -/
theorem ingestion_failure_no_rollback (db : DB) (content_list : List WebsiteContent)
    (k : Nat) (err : String) (now : Nat) :
    (perform_scrape_failed db content_list k err now).scrape_status =
      some { status := "failed", message := "Scraping failed: " ++ err,
             scraped_count := 0, last_scraped := now } ∧
    (∀ r ∈ db.scraped_content,
      r ∈ (perform_scrape_failed db content_list k err now).scraped_content) ∧
    (∀ c ∈ content_list.take k,
      ∃ r ∈ (perform_scrape_failed db content_list k err now).scraped_content,
        r.url = c.url) := by
  refine ⟨rfl, ?_, ?_⟩
  · intro r hr
    exact storeLoop_mem_mono (content_list.take k) db.scraped_content 0 r hr
  · intro c hc
    exact storeLoop_url_covered (content_list.take k) db.scraped_content 0 c hc

/-- C7 witness: the theorem applied at a concrete interrupted run. -/
theorem ingestion_failure_no_rollback_witness :
    (perform_scrape_failed { scraped_content := [sampleRecord], scrape_status := none }
        [jazzRecord, sampleRecord] 1 "boom" 9).scrape_status =
      some { status := "failed", message := "Scraping failed: " ++ "boom",
             scraped_count := 0, last_scraped := 9 } ∧
    (∀ r ∈ ({ scraped_content := [sampleRecord], scrape_status := none } : DB).scraped_content,
      r ∈ (perform_scrape_failed { scraped_content := [sampleRecord], scrape_status := none }
        [jazzRecord, sampleRecord] 1 "boom" 9).scraped_content) ∧
    (∀ c ∈ ([jazzRecord, sampleRecord] : List WebsiteContent).take 1,
      ∃ r ∈ (perform_scrape_failed { scraped_content := [sampleRecord], scrape_status := none }
          [jazzRecord, sampleRecord] 1 "boom" 9).scraped_content,
        r.url = c.url) :=
  ingestion_failure_no_rollback { scraped_content := [sampleRecord], scrape_status := none }
    [jazzRecord, sampleRecord] 1 "boom" 9

/-- C8 counterexample: on a concrete run over a fresh database, the
observable status values are `none` when the run begins, `none` after
the store step, and `completed` only at the end — no observation point
ever shows a `running` status, contradicting the claim that the status
cell is set to running before the run begins. -/
theorem no_running_status_counterexample :
    (perform_scrape_trace dbEmpty [sampleRecord] 0).map
      (fun st => st.scrape_status.map StatusDoc.status) =
    [none, none, some "completed"] := by
  decide

/-- C8 (amended): the status cell is never set to running; it keeps its
prior value at the start of the run and after every store step, and only
the final write of the run sets status=completed with scraped_count
equal to the run's new-record count. -/
theorem ingestion_status_lifecycle (db : DB) (content_list : List WebsiteContent)
    (now : Nat) :
    (∀ st ∈ (perform_scrape_trace db content_list now).dropLast,
      st.scrape_status = db.scrape_status) ∧
    (perform_scrape_trace db content_list now).getLast? =
      some (perform_scrape db content_list now) ∧
    (perform_scrape db content_list now).scrape_status = some
      { status := "completed"
        message := "Successfully scraped " ++
          toString (storeLoop db.scraped_content content_list).2 ++ " new articles"
        scraped_count := (storeLoop db.scraped_content content_list).2
        last_scraped := now } := by
  refine ⟨?_, ?_, rfl⟩
  · intro st hst
    rw [perform_scrape_trace, List.dropLast_concat] at hst
    obtain ⟨kk, _, hk⟩ := List.mem_map.mp hst
    rw [← hk]
  · rw [perform_scrape_trace]
    exact List.getLast?_concat _

/-- C5: for every input markup and origin URL, the extractor produces at
most 10 candidates, every candidate's title has at least 10 characters,
and every candidate's description is the content text truncated to at
most 300 characters. -/
theorem extractor_output_bounds (urljoin : String → String → String)
    (soup : HForest) (url : String) :
    (scrape_website urljoin soup url).length ≤ 10 ∧
    ∀ a ∈ scrape_website urljoin soup url,
      10 ≤ a.title.length ∧ a.description = strTake a.content 300 := by
  constructor
  · simp only [scrape_website]
    exact le_trans (List.length_filterMap_le _ _) (List.length_take_le _ _)
  · intro a ha
    simp only [scrape_website] at ha
    obtain ⟨e, _, hsome⟩ := List.mem_filterMap.mp ha
    obtain ⟨h1, h2, _, _⟩ := processArticleElement_some urljoin url e a hsome
    exact ⟨h1, h2⟩

/-- C5 witness: the theorem applied at the concrete jazz page, with the
membership hypothesis discharged at the extracted record. -/
theorem extractor_output_bounds_witness :
    (scrape_website (fun _ href => href) jazzDoc "https://example.ie/").length ≤ 10 ∧
    jazzRecord ∈ scrape_website (fun _ href => href) jazzDoc "https://example.ie/" ∧
    (10 ≤ jazzRecord.title.length ∧
      jazzRecord.description = strTake jazzRecord.content 300) :=
  ⟨(extractor_output_bounds (fun _ href => href) jazzDoc "https://example.ie/").1,
    by decide,
    (extractor_output_bounds (fun _ href => href) jazzDoc "https://example.ie/").2
      jazzRecord (by decide)⟩

/-- C6: every extracted candidate has content_type "event" exactly when
its title contains one of {event, gig, concert, show, exhibition}
case-insensitively and "article" otherwise, and its tag list is exactly
the tags with a keyword occurring in the lowered title; in particular
the page whose only container is titled "Dublin Jazz Festival Returns
This Weekend" yields one candidate with content_type "article" and an
empty tag list. -/
theorem extractor_classification (urljoin : String → String → String)
    (soup : HForest) (url : String) :
    (∀ a ∈ scrape_website urljoin soup url,
      (a.content_type = "event" ↔
        (["event", "gig", "concert", "show", "exhibition"].any
          (fun keyword => pyIn keyword (strLower a.title))) = true) ∧
      (a.content_type ≠ "event" → a.content_type = "article") ∧
      a.tags = tagsSpec a.title) ∧
    scrape_website (fun _ href => href) jazzDoc "https://example.ie/" = [jazzRecord] ∧
    jazzRecord.content_type = "article" ∧ jazzRecord.tags = [] := by
  refine ⟨?_, by decide, rfl, rfl⟩
  intro a ha
  simp only [scrape_website] at ha
  obtain ⟨e, _, hsome⟩ := List.mem_filterMap.mp ha
  obtain ⟨_, _, hct, htags⟩ := processArticleElement_some urljoin url e a hsome
  rw [hct, htags]
  obtain ⟨hiff, harticle⟩ := determineContentType_spec a.title
  exact ⟨hiff, harticle, extractTags_eq_tagsSpec a.title⟩

/-- C6 witness: the theorem applied at the concrete jazz page, with the
membership hypothesis discharged at the extracted record. -/
theorem extractor_classification_witness :
    ((jazzRecord.content_type = "event" ↔
        (["event", "gig", "concert", "show", "exhibition"].any
          (fun keyword => pyIn keyword (strLower jazzRecord.title))) = true) ∧
      (jazzRecord.content_type ≠ "event" → jazzRecord.content_type = "article") ∧
      jazzRecord.tags = tagsSpec jazzRecord.title) ∧
    jazzRecord.content_type = "article" :=
  ⟨(extractor_classification (fun _ href => href) jazzDoc "https://example.ie/").1
      jazzRecord (by decide),
    (extractor_classification (fun _ href => href) jazzDoc "https://example.ie/").2.2.1⟩

/-- C8 amended-claim witness: the theorem applied at a concrete run. -/
theorem ingestion_status_lifecycle_witness :
    (∀ st ∈ (perform_scrape_trace dbEmpty [sampleRecord] 4).dropLast,
      st.scrape_status = dbEmpty.scrape_status) ∧
    (perform_scrape_trace dbEmpty [sampleRecord] 4).getLast? =
      some (perform_scrape dbEmpty [sampleRecord] 4) ∧
    (perform_scrape dbEmpty [sampleRecord] 4).scrape_status = some
      { status := "completed"
        message := "Successfully scraped " ++
          toString (storeLoop dbEmpty.scraped_content [sampleRecord]).2 ++ " new articles"
        scraped_count := (storeLoop dbEmpty.scraped_content [sampleRecord]).2
        last_scraped := 4 } :=
  ingestion_status_lifecycle dbEmpty [sampleRecord] 4

end DublinEvents
